import Mathlib

/-
Verification development for the ChemRxiv announcement bot (CRXBot.py).

The Python source is shallowly embedded: pure functions become Lean
functions; a raised Python exception is modelled as `none` (for
`prepare_tweet`) or as a `raised` flag in an effect record (for
`tweet_image` and the main loop); the effects of the main loop (posting
API calls, detail and file fetches, the appended dedup-log file, audit
log lines) are collected explicitly in a state record.  Strings are
Lean strings; Python `len` is `String.length`; the dedup-log file is a
list of characters.
-/

/-- An author record; the source only ever reads the key full_name
(CRXBot.py line 79). -/
structure Author where
  full_name : String
deriving DecidableEq

/-- Outcome of prepare_tweet when no exception is raised: the Python
function returns either False (here rejected) or the tweet text
(CRXBot.py lines 104-106). -/
inductive TweetResult
  | rejected
  | text (s : String)
deriving DecidableEq

/-- Python tag.lower().replace(' ', '-') from CRXBot.py line 93:
lower-case each character, then turn every space into a hyphen.  For a
one-character pattern and replacement, Python str.replace is exactly a
character map. -/
def lowerHyphen (tag : String) : String :=
  String.mk (tag.data.map (fun c => if c.toLower = ' ' then '-' else c.toLower))

/-- The hashtag string built for one tag, including the separating
space written by the source (CRXBot.py line 93: hashtag = " #" + ...). -/
def hashtagOf (tag : String) : String :=
  " #" ++ lowerHyphen tag

/-- The greedy hashtag loop of CRXBot.py lines 92-96: append each
hashtag only while the running text stays within 255 characters; a tag
that would overflow is skipped but later tags are still tried. -/
def addHashtags (head : String) : List String → String
  | [] => head
  | tag :: rest =>
    if head.length + (hashtagOf tag).length ≤ 255 then
      addHashtags (head ++ hashtagOf tag) rest
    else addHashtags head rest

/-- realtweetlength of CRXBot.py line 102: the length of the assembled
text with the URL string counted as a fixed 23-character token.  The
URL is always a suffix of the assembled text, so the truncated
subtraction agrees with Python integer arithmetic. -/
def countedLength (s preprintURL : String) : Nat :=
  s.length - preprintURL.length + 23

/-- The assembly part of prepare_tweet (CRXBot.py lines 74-99): head =
title + " by " + last author (+ " & co-workers" when several authors),
then the greedy hashtags, then two line breaks and the URL.  `none`
models the IndexError raised by authors[-1] on an empty author list. -/
def assembleTweet (title : String) (authors : List Author) (preprintURL : String)
    (tags : List String) : Option String :=
  match authors.getLast? with
  | none => none
  | some lastAuthor =>
    let tweetAuthors :=
      if authors.length > 1 then lastAuthor.full_name ++ " & co-workers"
      else lastAuthor.full_name
    some (addHashtags (title ++ " by " ++ tweetAuthors) tags ++ "\n\n" ++ preprintURL)

/-- prepare_tweet of CRXBot.py lines 70-106: assemble the text, then
reject it (Python False) when the counted length exceeds 280. -/
def prepare_tweet (title : String) (authors : List Author) (preprintURL : String)
    (tags : List String) : Option TweetResult :=
  match assembleTweet title authors preprintURL tags with
  | none => none
  | some tweetText =>
    if countedLength tweetText preprintURL > 280 then some TweetResult.rejected
    else some (TweetResult.text tweetText)

/-- Concatenation of a list of strings, used to state the shape of the
hashtag section. -/
def concatAll : List String → String
  | [] => ""
  | s :: rest => s ++ concatAll rest

/-- The list of hashtags the greedy loop of CRXBot.py lines 92-96
actually appends, starting from a running length curLen. -/
def greedyHashtags (curLen : Nat) : List String → List String
  | [] => []
  | tag :: rest =>
    if curLen + (hashtagOf tag).length ≤ 255 then
      hashtagOf tag :: greedyHashtags (curLen + (hashtagOf tag).length) rest
    else greedyHashtags curLen rest

/-- The head of an accepted tweet as the spec words it: title, the
literal " by ", the last author, and the co-worker suffix exactly when
the author list has more than one entry. -/
def tweetHeadOf (title : String) (authors : List Author) (lastAuthor : Author) : String :=
  title ++ " by " ++ lastAuthor.full_name ++
    (if authors.length > 1 then " & co-workers" else "")

/-- A file record of a preprint; the source reads the keys name,
is_link_only and download_url (CRXBot.py lines 24-31). -/
structure FileRecord where
  name : String
  is_link_only : Bool
  download_url : String
deriving DecidableEq

/-- The argument of get_preprint_image_url: Python is dynamically
typed, so the input is either an actual list of file records or any
other value (nonList). -/
inductive FilesInput
  | list (files : List FileRecord)
  | nonList
deriving DecidableEq

/-- Python filename.endswith(suffix) on the character lists of the two
strings. -/
def strEndsWith (s suffix : String) : Bool :=
  suffix.data.isSuffixOf s.data

/-- Python preprint_file['name'].lower() (CRXBot.py line 28). -/
def lowerStr (s : String) : String :=
  String.mk (s.data.map Char.toLower)

/-- The loop body of get_preprint_image_url (CRXBot.py lines 24-33):
skip link-only records, return the download URL of the first record
whose lower-cased name ends in .png or .jpg, else the empty string. -/
def imageSearch : List FileRecord → String
  | [] => ""
  | f :: rest =>
    if f.is_link_only then imageSearch rest
    else if strEndsWith (lowerStr f.name) ".png" || strEndsWith (lowerStr f.name) ".jpg" then
      f.download_url
    else imageSearch rest

/-- get_preprint_image_url of CRXBot.py lines 19-33: empty string for
any non-list input, otherwise the first matching image file URL. -/
def get_preprint_image_url : FilesInput → String
  | FilesInput.nonList => ""
  | FilesInput.list files => imageSearch files

/-- The selection predicate of the loop: not link-only, and the
lower-cased name ends in .png or .jpg. -/
def isGoodImage (f : FileRecord) : Bool :=
  !f.is_link_only &&
    (strEndsWith (lowerStr f.name) ".png" || strEndsWith (lowerStr f.name) ".jpg")

/-- Outcome of the requests.get call downloading the image (CRXBot.py
line 45): either a response with an HTTP status code and a body size
in bytes, or a transport error, which requests raises as an exception. -/
inductive FetchOutcome
  | response (status : Nat) (sizeBytes : Nat)
  | transportError
deriving DecidableEq

/-- A call to the posting (Twitter) API made by tweet_image: either
update_with_media (CRXBot.py line 56) or update_status (line 59). -/
inductive PostCall
  | update_with_media (filename message : String)
  | update_status (message : String)
deriving DecidableEq

/-- Observable effects of one tweet_image call.  raised means a Python
exception propagated out of the function; postCalls are the calls made
to the posting API, in order; logs are the write_log lines of this
call; tempWritten and tempRemoved track the temp.png file. -/
structure TweetImageResult where
  raised : Bool
  postCalls : List PostCall
  logs : List String
  tempWritten : Bool
  tempRemoved : Bool
deriving DecidableEq

/-- write_log line of CRXBot.py line 67. -/
def successLine (message : String) : String :=
  "Tweet successful. " ++ message ++ " (" ++ toString message.length ++ " characters)."

/-- write_log line of CRXBot.py line 61. -/
def offlineLine : String :=
  "Offline-Tweeting due to user request (--notwitter on command line)."

/-- write_log line of CRXBot.py line 64; the argument is the file size
in kilobytes. -/
def imageSizeLine (kb : Nat) : String :=
  "Tweet includes image of " ++ toString kb ++ " KBytes."

/-- The part of tweet_image after the download section (CRXBot.py
lines 54-67): the posting branch chosen by usetwitter and
include_image, the offline audit lines, and the final success line.
postOK tells whether the posting-API call (if any) succeeds; when it
raises, the function exits before os.remove and before the final
write_log. -/
def finishPost (message : String) (usetwitter include_image : Bool) (sizeBytes : Nat)
    (postOK : Bool) (logs0 : List String) (tempWritten : Bool) : TweetImageResult :=
  if usetwitter then
    if include_image then
      if postOK then
        { raised := false
          postCalls := [PostCall.update_with_media "temp.png" message]
          logs := logs0 ++ [successLine message]
          tempWritten := tempWritten, tempRemoved := true }
      else
        { raised := true
          postCalls := [PostCall.update_with_media "temp.png" message]
          logs := logs0
          tempWritten := tempWritten, tempRemoved := false }
    else
      if postOK then
        { raised := false
          postCalls := [PostCall.update_status message]
          logs := logs0 ++ [successLine message]
          tempWritten := tempWritten, tempRemoved := false }
      else
        { raised := true
          postCalls := [PostCall.update_status message]
          logs := logs0
          tempWritten := tempWritten, tempRemoved := false }
  else
    { raised := false
      postCalls := []
      logs := (logs0 ++ [offlineLine] ++
                (if include_image then [imageSizeLine (sizeBytes / 1024)] else [])) ++
              [successLine message]
      tempWritten := tempWritten, tempRemoved := false }

/-- tweet_image of CRXBot.py lines 36-67.  When the url is non-empty,
requests.get is executed: a transport error raises immediately (it is
not caught by the source), a 200 response writes temp.png and sets
include_image, any other status logs the download warning.  Then the
posting section runs. -/
def tweet_image (url message : String) (usetwitter : Bool) (fetch : FetchOutcome)
    (postOK : Bool) : TweetImageResult :=
  if url.length > 0 then
    match fetch with
    | FetchOutcome.transportError =>
      { raised := true, postCalls := [], logs := []
        tempWritten := false, tempRemoved := false }
    | FetchOutcome.response status sizeBytes =>
      if status = 200 then
        finishPost message usetwitter true sizeBytes postOK [] true
      else
        finishPost message usetwitter false sizeBytes postOK
          ["Error, couldn\x27t download image. Continue without."] false
  else
    finishPost message usetwitter false 0 postOK [] false

/-- CRXBot.py line 12. -/
def doiRootURL : String := "https://doi.org/"

/-- An article summary yielded by the listing stream; the loop reads
str(l['id']) (CRXBot.py line 310). -/
structure Summary where
  id : String
deriving DecidableEq

/-- The full preprint record returned by api.preprint; the loop reads
title, authors, doi and tags (CRXBot.py lines 332-346). -/
structure Preprint where
  title : String
  authors : List Author
  doi : String
  tags : List String

/-- Commit of one identifier to the dedup log (CRXBot.py lines
366-367): append the identifier and a newline to the file. -/
def commitAppend (file : List Char) (pid : String) : List Char :=
  file ++ (pid.data ++ ['\n'])

/-- Split a file into its newline-separated segments, returning the
open last segment separately: splitting on each newline character,
this models Python file iteration (one line per newline) combined with
the strip of the line terminators. -/
def splitSegNE : List Char → List Char × List (List Char)
  | [] => ([], [])
  | c :: cs =>
    let p := splitSegNE cs
    if c = '\n' then ([], p.1 :: p.2) else (c :: p.1, p.2)

/-- All newline-separated segments of a file, the trailing open
segment included (for n newlines there are n+1 segments). -/
def splitSeg (cs : List Char) : List (List Char) :=
  (splitSegNE cs).1 :: (splitSegNE cs).2

/-- Loading of the dedup log (CRXBot.py lines 281-288): list(f) yields
one string per line (each line ending in a newline except possibly the
last, and no line for an empty trailing rest), and each is stripped of
its newline characters.  Equivalent formulation: the newline-separated
segments of the file, dropping a final empty segment. -/
def loadIdLog (file : List Char) : List String :=
  (if (splitSeg file).getLast? = some [] then (splitSeg file).dropLast
   else splitSeg file).map String.mk

/-- Environment of one run of the main loop (CRXBot.py lines 296-377):
numberPreprints is the value of sys.getsizeof(doc) at line 297 (the
byte size of the generator object, an arbitrary number unrelated to
how many summaries the stream holds); detail and filesOf are the
api.preprint and api.files capabilities; fetch gives the requests.get
outcome per image URL; postOK whether posting-API calls succeed;
usetwitter is the live-mode flag. -/
structure LoopEnv where
  numberPreprints : Nat
  detail : String → Preprint
  filesOf : String → FilesInput
  fetch : String → FetchOutcome
  postOK : Bool
  usetwitter : Bool

/-- State threaded through the main loop: the remaining stream, a
crashed flag (an uncaught Python exception, including the
StopIteration of next(doc) on an exhausted stream), the detail and
file fetches and posting calls made so far, the audit log lines
written inside the loop, the dedup-log file contents, and the three
counters of CRXBot.py lines 300-302. -/
structure LoopState where
  stream : List Summary
  crashed : Bool
  detailFetches : List String
  fileFetches : List String
  postCalls : List PostCall
  logs : List String
  idLogFile : List Char
  added : Nat
  tweeted : Nat
  failed : Nat

/-- The commit section of the loop body (CRXBot.py lines 365-369):
two audit lines, the file append, and the added counter. -/
def commitStep (pid : String) (st : LoopState) : LoopState :=
  { st with
    logs := st.logs ++ ["Committing ID to log...", "Wrote " ++ pid ++ " to log"]
    idLogFile := commitAppend st.idLogFile pid
    added := st.added + 1 }

/-- Processing of one new (not yet logged) preprint (CRXBot.py lines
317-369): log the discovery, fetch the detail record, fetch the file
list and resolve the thumbnail, compose the tweet; a Rejected (False)
composition logs the manual-review notice and counts as failed, an
accepted one is submitted through tweet_image; either way the
identifier is then committed.  A raised exception (prepare_tweet on an
empty author list, or tweet_image) crashes the run. -/
def processNew (env : LoopEnv) (pid : String) (st : LoopState) : LoopState :=
  let st := { st with
    logs := st.logs ++ ["New preprint found!"]
    detailFetches := st.detailFetches ++ [pid] }
  let current := env.detail pid
  let preprintURL := doiRootURL ++ current.doi
  let st := { st with fileFetches := st.fileFetches ++ [pid] }
  let thumbnailURL := get_preprint_image_url (env.filesOf pid)
  match prepare_tweet current.title current.authors preprintURL current.tags with
  | none => { st with crashed := true }
  | some TweetResult.rejected =>
    commitStep pid { st with
      logs := st.logs ++
        ["NOTICE: Could not tweet preprint at " ++ preprintURL ++ ", please check manually."]
      failed := st.failed + 1 }
  | some (TweetResult.text tweetText) =>
    let r := tweet_image thumbnailURL tweetText env.usetwitter (env.fetch thumbnailURL)
      env.postOK
    let st := { st with
      logs := (st.logs ++ ["Submitting " ++ pid ++ " to Twitter..."]) ++ r.logs
      postCalls := st.postCalls ++ r.postCalls }
    if r.raised then { st with crashed := true }
    else commitStep pid { st with tweeted := st.tweeted + 1 }

/-- One iteration of the for loop (CRXBot.py lines 306-316): next(doc)
raises StopIteration on an exhausted stream (which the for loop over
range does not catch, so the run crashes); a summary whose identifier
is in the loaded id_log is skipped silently; otherwise the preprint is
processed. -/
def loopIter (env : LoopEnv) (id_log : List String) (st : LoopState) : LoopState :=
  match st.stream with
  | [] => { st with crashed := true }
  | s :: rest =>
    let st := { st with stream := rest }
    if s.id ∈ id_log then st else processNew env s.id st

/-- The for loop of CRXBot.py line 306: exactly numberPreprints
iterations, stopping early only when an exception has crashed the run. -/
def runLoopAux (env : LoopEnv) (id_log : List String) : Nat → LoopState → LoopState
  | 0, st => st
  | n + 1, st => if st.crashed then st else runLoopAux env id_log n (loopIter env id_log st)

/-- The run-summary audit line of CRXBot.py line 377. -/
def summaryLine (added tweeted failed : Nat) : String :=
  "All preprints checked. Processed " ++ toString added ++ " new preprints. Tweeted " ++
    toString tweeted ++ ", failed to tweet " ++ toString failed ++ "."

/-- The whole bot run of CRXBot.py lines 296-377, starting after the
id_log has been loaded: iterate numberPreprints times over the stream,
then (only if no exception crashed the run) write the run-summary
line. -/
def runLoop (env : LoopEnv) (id_log : List String) (file0 : List Char)
    (stream0 : List Summary) : LoopState :=
  let st0 : LoopState :=
    { stream := stream0, crashed := false, detailFetches := [], fileFetches := []
      postCalls := [], logs := [], idLogFile := file0, added := 0, tweeted := 0, failed := 0 }
  let st := runLoopAux env id_log env.numberPreprints st0
  if st.crashed then st
  else { st with logs := st.logs ++ [summaryLine st.added st.tweeted st.failed] }

/-- A concrete loop environment used by the witnesses and the
main-loop evaluations. -/
def sampleEnv : LoopEnv where
  numberPreprints := 3
  detail := fun _ => ⟨"T", [⟨"A"⟩], "10.1/x", []⟩
  filesOf := fun _ => FilesInput.nonList
  fetch := fun _ => FetchOutcome.transportError
  postOK := true
  usetwitter := true

lemma str_data_append (a b : String) : (a ++ b).data = a.data ++ b.data := rfl

lemma str_length_append (a b : String) : (a ++ b).length = a.length + b.length := by
  cases a with
  | mk da =>
    cases b with
    | mk db => exact List.length_append da db

lemma str_append_assoc (a b c : String) : a ++ b ++ c = a ++ (b ++ c) := by
  cases a with
  | mk da =>
    cases b with
    | mk db =>
      cases c with
      | mk dc => exact congrArg String.mk (List.append_assoc da db dc)

lemma str_append_empty (a : String) : a ++ "" = a := by
  cases a with
  | mk da => exact congrArg String.mk (List.append_nil da)

lemma prepare_tweet_of_assemble (title preprintURL : String) (authors : List Author)
    (tags : List String) (t : String)
    (hasm : assembleTweet title authors preprintURL tags = some t) :
    prepare_tweet title authors preprintURL tags =
      if countedLength t preprintURL > 280 then some TweetResult.rejected
      else some (TweetResult.text t) := by
  unfold prepare_tweet
  rw [hasm]

/-- C1: for every title, non-empty author list, URL and tag list, a
text returned by prepare_tweet has counted length (length excluding
the URL string, plus the 23-character URL token, the two line breaks
included) at most 280, and whenever the assembled text's counted
length exceeds 280 prepare_tweet returns Rejected instead. -/
theorem prepare_tweet_counted_length_bound (title preprintURL : String)
    (authors : List Author) (tags : List String) (hA : authors ≠ []) :
    (∀ s, prepare_tweet title authors preprintURL tags = some (TweetResult.text s) →
      countedLength s preprintURL ≤ 280) ∧
    (∀ s, assembleTweet title authors preprintURL tags = some s →
      280 < countedLength s preprintURL →
      prepare_tweet title authors preprintURL tags = some TweetResult.rejected) := by
  constructor
  · intro s h
    cases hasm : assembleTweet title authors preprintURL tags with
    | none =>
      have hnone : prepare_tweet title authors preprintURL tags = none := by
        unfold prepare_tweet; rw [hasm]
      rw [hnone] at h
      exact Option.noConfusion h
    | some t =>
      rw [prepare_tweet_of_assemble title preprintURL authors tags t hasm] at h
      by_cases hc : countedLength t preprintURL > 280
      · rw [if_pos hc] at h
        exact absurd h (by simp)
      · rw [if_neg hc] at h
        have ht : t = s := by
          have := Option.some.inj h
          exact TweetResult.text.inj this
        subst ht
        omega
  · intro s h hgt
    rw [prepare_tweet_of_assemble title preprintURL authors tags s h, if_pos hgt]

/-- Witness for C1 at a concrete accepted composition. -/
theorem prepare_tweet_counted_length_bound_witness :
    countedLength "A Study of X by B. Jones & co-workers\n\nhttps://doi.org/10.1/abc"
      "https://doi.org/10.1/abc" ≤ 280 :=
  (prepare_tweet_counted_length_bound "A Study of X" "https://doi.org/10.1/abc"
    [⟨"A. Smith"⟩, ⟨"B. Jones"⟩] [] (by decide)).1
    "A Study of X by B. Jones & co-workers\n\nhttps://doi.org/10.1/abc" (by decide)

/-- C10: prepare_tweet presupposes a non-empty author list: on the
empty list it raises (models the IndexError of authors[-1]) rather
than returning Rejected or a text; any non-raising outcome implies the
author list was non-empty; and Rejected arises only from the length
check on the assembled text. -/
theorem prepare_tweet_empty_authors_raises :
    (∀ title preprintURL tags, prepare_tweet title [] preprintURL tags = none) ∧
    (∀ title authors preprintURL tags r,
      prepare_tweet title authors preprintURL tags = some r → authors ≠ []) ∧
    (∀ title authors preprintURL tags,
      prepare_tweet title authors preprintURL tags = some TweetResult.rejected →
      ∃ t, assembleTweet title authors preprintURL tags = some t ∧
        280 < countedLength t preprintURL) := by
  refine ⟨?_, ?_, ?_⟩
  · intro title preprintURL tags; rfl
  · intro title authors preprintURL tags r h hempty
    subst hempty
    have hnone : prepare_tweet title [] preprintURL tags = none := rfl
    rw [hnone] at h
    exact Option.noConfusion h
  · intro title authors preprintURL tags h
    cases hasm : assembleTweet title authors preprintURL tags with
    | none =>
      have hnone : prepare_tweet title authors preprintURL tags = none := by
        unfold prepare_tweet; rw [hasm]
      rw [hnone] at h
      exact Option.noConfusion h
    | some t =>
      rw [prepare_tweet_of_assemble title preprintURL authors tags t hasm] at h
      by_cases hc : countedLength t preprintURL > 280
      · exact ⟨t, rfl, hc⟩
      · rw [if_neg hc] at h
        exact absurd (Option.some.inj h) (by simp)

/-- Witness for C10: a concrete non-raising outcome, whose author list
is indeed non-empty. -/
theorem prepare_tweet_empty_authors_raises_witness :
    ([⟨"B. Jones"⟩] : List Author) ≠ [] :=
  prepare_tweet_empty_authors_raises.2.1 "T" [⟨"B. Jones"⟩] "u" []
    (TweetResult.text "T by B. Jones\n\nu") (by decide)

/-- C5: get_preprint_image_url returns the empty string on a non-list
input; on a list it returns the download URL of the first record that
is not link-only and whose name case-insensitively ends in .png or
.jpg, and the empty string when no record matches; on the two-record
example with fig1.svg and fig2.PNG it returns fig2's URL. -/
theorem resolveImage_characterisation :
    get_preprint_image_url FilesInput.nonList = "" ∧
    (∀ files, get_preprint_image_url (FilesInput.list files) =
      ((files.find? isGoodImage).map FileRecord.download_url).getD "") ∧
    get_preprint_image_url (FilesInput.list
      [⟨"fig1.svg", false, "URL1"⟩, ⟨"fig2.PNG", false, "URL2"⟩]) = "URL2" := by
  refine ⟨rfl, ?_, by decide⟩
  intro files
  show imageSearch files = _
  induction files with
  | nil => rfl
  | cons f rest ih =>
    cases hlink : f.is_link_only with
    | true => simp [imageSearch, hlink, List.find?, isGoodImage, ih]
    | false =>
      cases hext : (strEndsWith (lowerStr f.name) ".png" ||
          strEndsWith (lowerStr f.name) ".jpg") with
      | true => simp [imageSearch, hlink, hext, List.find?, isGoodImage]
      | false => simp [imageSearch, hlink, hext, List.find?, isGoodImage, ih]

lemma addHashtags_eq_greedy (tags : List String) :
    ∀ head : String,
      addHashtags head tags = head ++ concatAll (greedyHashtags head.length tags) := by
  induction tags with
  | nil =>
    intro head
    simp only [addHashtags, greedyHashtags, concatAll]
    rw [str_append_empty]
  | cons tag rest ih =>
    intro head
    simp only [addHashtags, greedyHashtags]
    by_cases hc : head.length + (hashtagOf tag).length ≤ 255
    · rw [if_pos hc, if_pos hc, ih (head ++ hashtagOf tag), str_length_append]
      simp only [concatAll]
      rw [str_append_assoc]
    · rw [if_neg hc, if_neg hc, ih head]

lemma tweetHeadOf_eq (title : String) (authors : List Author) (lastAuthor : Author) :
    tweetHeadOf title authors lastAuthor =
      title ++ " by " ++
        (if authors.length > 1 then lastAuthor.full_name ++ " & co-workers"
         else lastAuthor.full_name) := by
  simp only [tweetHeadOf]
  by_cases h1 : authors.length > 1
  · rw [if_pos h1, if_pos h1, str_append_assoc]
  · rw [if_neg h1, if_neg h1, str_append_empty]

/-- C6: an accepted composition is exactly the head (title, the
literal " by ", the last author's full name, the co-worker suffix
exactly when there is more than one author), followed by the hashtags
the greedy 255-character loop selects (each tag lower-cased with
spaces turned into hyphens behind a "#", separated by single spaces,
overflowing tags skipped while later tags are still tried), followed
by exactly two line breaks and the URL as its actual string. -/
theorem prepare_tweet_text_shape (title preprintURL : String) (authors : List Author)
    (tags : List String) (s : String) (lastAuthor : Author)
    (hlast : authors.getLast? = some lastAuthor)
    (h : prepare_tweet title authors preprintURL tags = some (TweetResult.text s)) :
    s = tweetHeadOf title authors lastAuthor ++
      concatAll (greedyHashtags (tweetHeadOf title authors lastAuthor).length tags) ++
      "\n\n" ++ preprintURL := by
  have hasm : assembleTweet title authors preprintURL tags =
      some (addHashtags (title ++ " by " ++
        (if authors.length > 1 then lastAuthor.full_name ++ " & co-workers"
         else lastAuthor.full_name)) tags ++ "\n\n" ++ preprintURL) := by
    unfold assembleTweet
    rw [hlast]
  rw [prepare_tweet_of_assemble title preprintURL authors tags _ hasm] at h
  by_cases hc : countedLength (addHashtags (title ++ " by " ++
      (if authors.length > 1 then lastAuthor.full_name ++ " & co-workers"
       else lastAuthor.full_name)) tags ++ "\n\n" ++ preprintURL) preprintURL > 280
  · rw [if_pos hc] at h
    exact absurd h (by simp)
  · rw [if_neg hc] at h
    have hs := (TweetResult.text.inj (Option.some.inj h)).symm
    rw [hs, tweetHeadOf_eq, addHashtags_eq_greedy]

/-- Witness for C6 on the example composition of the spec. -/
theorem prepare_tweet_text_shape_witness :
    "A Study of X by B. Jones & co-workers #organic-chemistry #catalysis\n\nhttps://doi.org/10.1/abc" =
      tweetHeadOf "A Study of X" [⟨"A. Smith"⟩, ⟨"B. Jones"⟩] ⟨"B. Jones"⟩ ++
        concatAll (greedyHashtags
          (tweetHeadOf "A Study of X" [⟨"A. Smith"⟩, ⟨"B. Jones"⟩] ⟨"B. Jones"⟩).length
          ["Organic Chemistry", "Catalysis"]) ++
        "\n\n" ++ "https://doi.org/10.1/abc" :=
  prepare_tweet_text_shape "A Study of X" "https://doi.org/10.1/abc"
    [⟨"A. Smith"⟩, ⟨"B. Jones"⟩] ["Organic Chemistry", "Catalysis"]
    "A Study of X by B. Jones & co-workers #organic-chemistry #catalysis\n\nhttps://doi.org/10.1/abc"
    ⟨"B. Jones"⟩ (by decide) (by decide)

lemma splitSegNE_noNL (pid : List Char) (h : '\n' ∉ pid) (tail : List Char) :
    splitSegNE (pid ++ '\n' :: tail) = (pid, splitSeg tail) := by
  induction pid with
  | nil => simp [splitSegNE, splitSeg]
  | cons c cs ih =>
    have hc : c ≠ '\n' := fun he => h (he ▸ List.mem_cons_self c cs)
    have hcs : '\n' ∉ cs := fun hm => h (List.mem_cons_of_mem c hm)
    simp only [List.cons_append, splitSegNE, List.append_eq, if_neg hc]
    rw [ih hcs]

lemma splitSeg_eq_single_empty (cs : List Char) (h : splitSeg cs = [[]]) : cs = [] := by
  cases cs with
  | nil => rfl
  | cons c cs' =>
    exfalso
    by_cases hc : c = '\n'
    · simp [splitSeg, splitSegNE, hc] at h
    · simp [splitSeg, splitSegNE, hc] at h

lemma splitSeg_cons_newline (cs : List Char) :
    splitSeg ('\n' :: cs) = [] :: splitSeg cs := by
  simp [splitSeg, splitSegNE]

lemma splitSeg_cons_other (c : Char) (hc : c ≠ '\n') (cs : List Char) :
    splitSeg (c :: cs) =
      (c :: (splitSeg cs).headI) :: (splitSeg cs).tail := by
  simp [splitSeg, splitSegNE, hc]

lemma splitSeg_append_of_endNL (tail : List Char) :
    ∀ file : List Char, (file = [] ∨ file.getLast? = some '\n') →
      ∃ pre, splitSeg file = pre ++ [[]] ∧ splitSeg (file ++ tail) = pre ++ splitSeg tail := by
  intro file
  induction file with
  | nil => intro _; exact ⟨[], rfl, rfl⟩
  | cons c cs ih =>
    intro hfile
    have hlast : (c :: cs).getLast? = some '\n' :=
      hfile.resolve_left (by simp)
    by_cases hcsnil : cs = []
    · subst hcsnil
      have hc : c = '\n' := by
        rw [List.getLast?_singleton] at hlast
        exact Option.some.inj hlast
      subst hc
      refine ⟨[[]], by simp [splitSeg, splitSegNE], ?_⟩
      rw [List.cons_append, List.nil_append, splitSeg_cons_newline]
      rfl
    · have hcs' : cs.getLast? = some '\n' := by
        cases cs with
        | nil => exact absurd rfl hcsnil
        | cons d ds => rwa [List.getLast?_cons_cons] at hlast
      obtain ⟨pre, h1, h2⟩ := ih (Or.inr hcs')
      by_cases hc : c = '\n'
      · subst hc
        refine ⟨[] :: pre, ?_, ?_⟩
        · rw [splitSeg_cons_newline, h1]
          rfl
        · rw [List.cons_append, splitSeg_cons_newline, h2]
          rfl
      · cases hpre : pre with
        | nil =>
          exfalso
          rw [hpre] at h1
          exact hcsnil (splitSeg_eq_single_empty cs (by simpa using h1))
        | cons p ps =>
          rw [hpre] at h1 h2
          refine ⟨(c :: p) :: ps, ?_, ?_⟩
          · rw [splitSeg_cons_other c hc cs, h1]
            rfl
          · rw [List.cons_append, splitSeg_cons_other c hc (cs ++ tail), h2]
            cases hsplit : splitSeg tail with
            | nil =>
              exact absurd hsplit (by simp [splitSeg])
            | cons q qs => rfl

/-- C8: committing an identifier by appending one line to the dedup
log, then reloading the store from that file, yields a store that
contains the identifier: the append-one-line-per-id write composed
with the read-and-strip load is a round trip.  The identifier holds no
newline and the existing file is empty or newline-terminated, as every
file built from one-line-per-id appends is. -/
theorem dedup_commit_reload_contains (file : List Char) (pid : String)
    (hid : '\n' ∉ pid.data)
    (hfile : file = [] ∨ file.getLast? = some '\n') :
    pid ∈ loadIdLog (commitAppend file pid) := by
  obtain ⟨pre, _, h2⟩ := splitSeg_append_of_endNL (pid.data ++ ['\n']) file hfile
  have h3 : splitSeg (pid.data ++ ['\n']) = [pid.data, []] := by
    have hne := splitSegNE_noNL pid.data hid []
    simp only [splitSeg, hne]
    rfl
  rw [h3] at h2
  show pid ∈ loadIdLog (file ++ (pid.data ++ ['\n']))
  unfold loadIdLog
  rw [h2]
  have hlast : (pre ++ [pid.data, []]).getLast? = some ([] : List Char) := by
    rw [show pre ++ [pid.data, []] = (pre ++ [pid.data]) ++ [[]] by simp]
    exact List.getLast?_concat _
  rw [if_pos hlast]
  have hdrop : (pre ++ [pid.data, []]).dropLast = pre ++ [pid.data] := by
    rw [show pre ++ [pid.data, []] = (pre ++ [pid.data]) ++ [[]] by simp]
    exact List.dropLast_concat
  rw [hdrop]
  have : String.mk pid.data = pid := rfl
  simp [this]

/-- Witness for C8 at a concrete identifier and the empty log file. -/
theorem dedup_commit_reload_contains_witness :
    "12345" ∈ loadIdLog (commitAppend [] "12345") :=
  dedup_commit_reload_contains [] "12345" (by decide) (Or.inl rfl)

lemma loopIter_nil (env : LoopEnv) (id_log : List String) (st : LoopState)
    (h : st.stream = []) :
    loopIter env id_log st = { st with crashed := true } := by
  unfold loopIter
  rw [h]

lemma loopIter_seen (env : LoopEnv) (id_log : List String) (st : LoopState)
    (s : Summary) (rest : List Summary) (h : st.stream = s :: rest)
    (hs : s.id ∈ id_log) :
    loopIter env id_log st = { st with stream := rest } := by
  unfold loopIter
  rw [h]
  show (if s.id ∈ id_log then { st with stream := rest }
    else processNew env s.id { st with stream := rest }) = { st with stream := rest }
  rw [if_pos hs]

lemma loopIter_all_seen (env : LoopEnv) (id_log : List String) (st : LoopState)
    (h : ∀ s ∈ st.stream, s.id ∈ id_log) :
    (loopIter env id_log st).postCalls = st.postCalls ∧
    (loopIter env id_log st).detailFetches = st.detailFetches ∧
    (loopIter env id_log st).fileFetches = st.fileFetches ∧
    (loopIter env id_log st).idLogFile = st.idLogFile ∧
    (∀ s ∈ (loopIter env id_log st).stream, s.id ∈ id_log) := by
  cases hstream : st.stream with
  | nil =>
    rw [loopIter_nil env id_log st hstream]
    refine ⟨rfl, rfl, rfl, rfl, ?_⟩
    intro x hx
    exact h x hx
  | cons s rest =>
    have hs : s.id ∈ id_log := h s (by rw [hstream]; exact List.mem_cons_self s rest)
    rw [loopIter_seen env id_log st s rest hstream hs]
    refine ⟨rfl, rfl, rfl, rfl, ?_⟩
    intro x hx
    exact h x (by rw [hstream]; exact List.mem_cons_of_mem s hx)

lemma runLoopAux_succ (env : LoopEnv) (id_log : List String) (n : Nat) (st : LoopState) :
    runLoopAux env id_log (n + 1) st =
      if st.crashed then st else runLoopAux env id_log n (loopIter env id_log st) := rfl

lemma runLoopAux_all_seen (env : LoopEnv) (id_log : List String) (n : Nat) :
    ∀ st : LoopState, (∀ s ∈ st.stream, s.id ∈ id_log) →
      (runLoopAux env id_log n st).postCalls = st.postCalls ∧
      (runLoopAux env id_log n st).detailFetches = st.detailFetches ∧
      (runLoopAux env id_log n st).fileFetches = st.fileFetches ∧
      (runLoopAux env id_log n st).idLogFile = st.idLogFile := by
  induction n with
  | zero => intro st _; exact ⟨rfl, rfl, rfl, rfl⟩
  | succ n ih =>
    intro st h
    rw [runLoopAux_succ]
    by_cases hcr : st.crashed = true
    · rw [if_pos hcr]
      exact ⟨rfl, rfl, rfl, rfl⟩
    · rw [if_neg hcr]
      obtain ⟨i1, i2, i3, i4, i5⟩ := loopIter_all_seen env id_log st h
      obtain ⟨a1, a2, a3, a4⟩ := ih (loopIter env id_log st) i5
      exact ⟨a1.trans i1, a2.trans i2, a3.trans i3, a4.trans i4⟩

/-- C2: when every identifier of the stream is already in the loaded
id_log, one run of the main loop makes zero posting-API calls, zero
detail fetches, zero file fetches, and leaves the dedup-log file
unchanged. -/
theorem mainloop_no_reposting_when_all_seen (env : LoopEnv) (id_log : List String)
    (file0 : List Char) (stream0 : List Summary)
    (hseen : ∀ s ∈ stream0, s.id ∈ id_log) :
    (runLoop env id_log file0 stream0).postCalls = [] ∧
    (runLoop env id_log file0 stream0).detailFetches = [] ∧
    (runLoop env id_log file0 stream0).fileFetches = [] ∧
    (runLoop env id_log file0 stream0).idLogFile = file0 := by
  unfold runLoop
  obtain ⟨a1, a2, a3, a4⟩ :=
    runLoopAux_all_seen env id_log env.numberPreprints
      { stream := stream0, crashed := false, detailFetches := [], fileFetches := []
        postCalls := [], logs := [], idLogFile := file0
        added := 0, tweeted := 0, failed := 0 } hseen
  by_cases hcr : (runLoopAux env id_log env.numberPreprints
      { stream := stream0, crashed := false, detailFetches := [], fileFetches := []
        postCalls := [], logs := [], idLogFile := file0
        added := 0, tweeted := 0, failed := 0 }).crashed
  · rw [if_pos hcr]
    exact ⟨a1, a2, a3, a4⟩
  · rw [if_neg hcr]
    exact ⟨a1, a2, a3, a4⟩

/-- Witness for C2: a one-summary stream whose identifier is already
logged. -/
theorem mainloop_no_reposting_when_all_seen_witness :
    (runLoop sampleEnv ["5"] [] [⟨"5"⟩]).postCalls = [] ∧
    (runLoop sampleEnv ["5"] [] [⟨"5"⟩]).detailFetches = [] ∧
    (runLoop sampleEnv ["5"] [] [⟨"5"⟩]).fileFetches = [] ∧
    (runLoop sampleEnv ["5"] [] [⟨"5"⟩]).idLogFile = [] :=
  mainloop_no_reposting_when_all_seen sampleEnv ["5"] [] [⟨"5"⟩] (by decide)

/-- C3 (code bug): the loop bound is sys.getsizeof of the generator
object, not the stream length.  With bound 1 and an exhausted (empty)
stream the run crashes on StopIteration and writes no run-summary
line; with bound 0 and a non-empty stream the run writes the summary
line without ever examining the remaining summary. -/
theorem mainloop_getsizeof_bound_divergence :
    ((runLoop { sampleEnv with numberPreprints := 1 } [] [] []).crashed = true ∧
     (runLoop { sampleEnv with numberPreprints := 1 } [] [] []).logs = []) ∧
    ((runLoop { sampleEnv with numberPreprints := 0 } [] [] [⟨"7"⟩]).logs =
       [summaryLine 0 0 0] ∧
     (runLoop { sampleEnv with numberPreprints := 0 } [] [] [⟨"7"⟩]).detailFetches = [] ∧
     (runLoop { sampleEnv with numberPreprints := 0 } [] [] [⟨"7"⟩]).stream = [⟨"7"⟩]) := by
  refine ⟨⟨rfl, rfl⟩, rfl, rfl, rfl⟩

/-- C4 (code bug): a transport error raised by requests.get is not
caught by tweet_image, so the whole post aborts with no warning log
and no text-only posting call, while a non-success HTTP status is
degraded to a text-only post after a warning log. -/
theorem tweet_image_transport_error_aborts :
    ((tweet_image "http://example.com/a.png" "msg" true FetchOutcome.transportError
        true).raised = true ∧
     (tweet_image "http://example.com/a.png" "msg" true FetchOutcome.transportError
        true).postCalls = [] ∧
     (tweet_image "http://example.com/a.png" "msg" true FetchOutcome.transportError
        true).logs = []) ∧
    ((tweet_image "http://example.com/a.png" "msg" true (FetchOutcome.response 404 0)
        true).raised = false ∧
     (tweet_image "http://example.com/a.png" "msg" true (FetchOutcome.response 404 0)
        true).postCalls = [PostCall.update_status "msg"] ∧
     (tweet_image "http://example.com/a.png" "msg" true (FetchOutcome.response 404 0)
        true).logs =
       ["Error, couldn\x27t download image. Continue without.", successLine "msg"]) := by
  refine ⟨⟨rfl, rfl, rfl⟩, rfl, rfl, by decide⟩

/-- C7 (code bug): in dry-run mode no posting-API call is ever made,
and when the image fetch returns (here a 200 response) the audit log
records the offline notice, the image size and the final message with
its length; but a transport error during the fetch aborts the dry-run
invocation before any audit line is written. -/
theorem tweet_image_dryrun_divergence :
    ((tweet_image "http://example.com/a.png" "m" false FetchOutcome.transportError
        true).postCalls = [] ∧
     (tweet_image "http://example.com/a.png" "m" false FetchOutcome.transportError
        true).logs = [] ∧
     (tweet_image "http://example.com/a.png" "m" false FetchOutcome.transportError
        true).raised = true) ∧
    ((tweet_image "http://example.com/a.png" "m" false (FetchOutcome.response 200 2048)
        true).postCalls = [] ∧
     (tweet_image "http://example.com/a.png" "m" false (FetchOutcome.response 200 2048)
        true).logs = [offlineLine, imageSizeLine 2, successLine "m"]) := by
  refine ⟨⟨rfl, rfl, rfl⟩, rfl, by decide⟩

/-- Counterexample for C9: when the live posting call raises, the
temporary image file is not removed, although the single
message-plus-image platform call was made. -/
theorem tweet_image_temp_file_left_on_post_failure :
    (tweet_image "http://example.com/a.png" "m" true (FetchOutcome.response 200 1024)
      false).postCalls = [PostCall.update_with_media "temp.png" "m"] ∧
    (tweet_image "http://example.com/a.png" "m" true (FetchOutcome.response 200 1024)
      false).tempWritten = true ∧
    (tweet_image "http://example.com/a.png" "m" true (FetchOutcome.response 200 1024)
      false).tempRemoved = false := by
  refine ⟨by decide, rfl, rfl⟩

/-- C9 (amended): in live mode with a successfully fetched image, the
message and image are posted as one update_with_media call; the
temporary file is removed when that call succeeds and is left behind
when the call raises. -/
theorem tweet_image_live_image_single_call (url message : String) (sizeBytes : Nat)
    (postOK : Bool) (hurl : url.length > 0) :
    (tweet_image url message true (FetchOutcome.response 200 sizeBytes)
      postOK).postCalls = [PostCall.update_with_media "temp.png" message] ∧
    (postOK = true →
      (tweet_image url message true (FetchOutcome.response 200 sizeBytes)
        postOK).tempRemoved = true ∧
      (tweet_image url message true (FetchOutcome.response 200 sizeBytes)
        postOK).raised = false) ∧
    (postOK = false →
      (tweet_image url message true (FetchOutcome.response 200 sizeBytes)
        postOK).tempRemoved = false ∧
      (tweet_image url message true (FetchOutcome.response 200 sizeBytes)
        postOK).raised = true) := by
  unfold tweet_image
  rw [if_pos hurl]
  cases postOK with
  | true => simp [finishPost]
  | false => simp [finishPost]

/-- Witness for C9's amended theorem at a concrete URL and sizes. -/
theorem tweet_image_live_image_single_call_witness :
    (tweet_image "u" "m" true (FetchOutcome.response 200 5) true).postCalls =
      [PostCall.update_with_media "temp.png" "m"] :=
  (tweet_image_live_image_single_call "u" "m" 5 true (by decide)).1
